import Mathlib

/-!
# ggenum: audit of Google Groups join policies

A shallow embedding of `main.go`.  The program is a straight line of effects
(files, standard output, the log, a local listener, three remote APIs); the
embedding threads an explicit `State` through every step and records each
effect, in program order, in `State.trace`.

* The remote APIs are scripts: the k-th list request receives the k-th entry
  of the list script, the j-th settings lookup the j-th entry of the settings
  script.  A script that ends before the program stops asking gives
  `Res.stuck` (the model has no answer there).
* `log.Fatal`/`log.Fatalf` end the run with `Res.fatal msg`.
* The blocking receive `<-codeCh` with no callback gives `Res.blocked`.
* Library calls whose code is not part of `main.go` (`encoding/json`,
  `google.ConfigFromJSON`, `Config.AuthCodeURL`, `Config.Exchange`,
  `NewService`) are fields of `Env`.  `Token.Valid`, which decides the branch
  of line 45, is written out after `golang.org/x/oauth2`.
-/

namespace Ggenum

/-! ## Data model -/

/-- An `oauth2.Token`, restricted to the exported fields that are serialised.
`expiry` is an instant in nanoseconds counted from Go's zero time
(January 1, year 1, 00:00:00 UTC), so `expiry = 0` is `Expiry.IsZero()`. -/
structure Token where
  accessToken : String
  tokenType : String
  refreshToken : String
  expiry : Int
deriving DecidableEq

/-- An `admin.Group` as far as the program reads it. -/
structure Group where
  email : String
  name : String
  description : String
deriving DecidableEq

/-- A `groupssettings.Groups` resource as far as the program reads it. -/
structure GroupSettings where
  whoCanJoin : String
deriving DecidableEq

/-- An `admin.Groups` list response: one page and its continuation token. -/
structure GroupsPage where
  groups : List Group
  nextPageToken : String
deriving DecidableEq

/-- An `oauth2.Config` produced by `google.ConfigFromJSON`. -/
structure Config where
  clientSecret : String
  scopes : List String
deriving DecidableEq

/-- Every effect the program has on its surroundings. -/
inductive Event where
  | readFile (path : String)
  | openFile (path : String)
  | createFile (path : String)
  | writeFile (path : String) (data : String)
  | stdout (text : String)
  | logPrint (text : String)
  | startWebServer (addr : String)
  | exchange (code : String)
  | newClient (token : Token)
  | listRequest (customer : String) (maxResults : Nat) (pageToken : String)
  | settingsRequest (email : String)
deriving DecidableEq

/-- The parts of the surroundings that the run does not change. -/
structure Env where
  /-- The reading of the clock taken by `Token.Valid`. -/
  now : Int
  /-- Error of `os.Create` for a path, if any. -/
  createErr : String → Option String
  /-- Error of writing to a path, if any. -/
  writeErr : String → Option String
  /-- Result of `google.ConfigFromJSON` on the key file and the scopes. -/
  configFromJSON : String → List String → Except String Config
  /-- Result of `Config.AuthCodeURL` for a state string. -/
  authCodeURL : Config → String → String
  /-- Error of `ListenAndServe`, if any. -/
  listenErr : Option String
  /-- The `code` query parameter of the browser callback, if it ever comes. -/
  callbackCode : Option String
  /-- Result of `Config.Exchange` for an authorization code. -/
  exchange : Config → String → Except String Token
  /-- Result of `json.Encoder.Encode` on a token. -/
  encodeToken : Token → Except String String
  /-- Result of `json.Decoder.Decode` on the content of a file. -/
  decodeToken : String → Except String Token
  /-- Error of `admin.NewService`, if any. -/
  directoryServiceErr : Option String
  /-- Error of `groupssettings.NewService`, if any. -/
  settingsServiceErr : Option String

/-- The parts of the surroundings that the run changes. -/
structure State where
  /-- Content of each existing file. -/
  files : String → Option String
  /-- Results the Groups Settings API gives to the lookups still to come. -/
  settingsResponses : List (Except String GroupSettings)
  /-- Effects so far, oldest first. -/
  trace : List Event

/-- How a piece of the program ends. -/
inductive Res (α : Type) where
  | done (a : α) (s : State)
  | fatal (msg : String) (s : State)
  | blocked (s : State)
  | stuck

/-- Sequencing: only `done` runs the rest. -/
def Res.bind {α β : Type} (r : Res α) (f : α → State → Res β) : Res β :=
  match r with
  | .done a s => f a s
  | .fatal msg s => .fatal msg s
  | .blocked s => .blocked s
  | .stuck => .stuck

/-- Record one effect. -/
def State.emit (s : State) (e : Event) : State :=
  { s with trace := s.trace ++ [e] }

/-- Replace the content of a file. -/
def State.setFile (s : State) (path data : String) : State :=
  { s with files := fun p => if p = path then some data else s.files p }

/-! ## Observations on a trace -/

/-- Text written to standard output, in order. -/
def stdoutOf : List Event → List String
  | [] => []
  | .stdout t :: es => t :: stdoutOf es
  | _ :: es => stdoutOf es

/-- Emails of the settings lookups, in order. -/
def lookupsOf : List Event → List String
  | [] => []
  | .settingsRequest e :: es => e :: lookupsOf es
  | _ :: es => lookupsOf es

/-- Customer, page size and page token of the list requests, in order. -/
def listRequestsOf : List Event → List (String × Nat × String)
  | [] => []
  | .listRequest c m t :: es => (c, m, t) :: listRequestsOf es
  | _ :: es => listRequestsOf es

/-- Lines written to the log, in order. -/
def logOf : List Event → List String
  | [] => []
  | .logPrint t :: es => t :: logOf es
  | _ :: es => logOf es

/-! ## The audit loop (main.go, lines 64-90) -/

/-- The `switch groupSettings.WhoCanJoin` statement (lines 78-83). -/
def reportWhoCanJoin (email : String) (settings : GroupSettings) (s : State) : State :=
  if settings.whoCanJoin = "ALL_IN_DOMAIN_CAN_JOIN" then
    s.emit (.stdout ("Group: " ++ email ++ " | allows anyone in the domain to join\n"))
  else if settings.whoCanJoin = "ANYONE_CAN_JOIN" then
    s.emit (.stdout ("Group: " ++ email ++ " | allows anyone anywhere to join\n"))
  else
    s

/-- The loop `for _, group := range resp.Groups` (lines 72-84).  The result is
`none` when the settings script ends before the groups do. -/
def auditGroups : List Group → State → Option State
  | [], s => some s
  | g :: gs, s =>
    match s.settingsResponses with
    | [] => none
    | r :: rest =>
      let s1 := { s with settingsResponses := rest }.emit (.settingsRequest g.email)
      match r with
      | .error err =>
        auditGroups gs
          (s1.emit (.logPrint ("Unable to retrieve settings for group " ++ g.email ++ ": " ++ err)))
      | .ok settings => auditGroups gs (reportWhoCanJoin g.email settings s1)

/-- The loop `for { ... }` of lines 65-90, by recursion on the script of list
responses: `pageToken` is the variable of line 64. -/
def listLoop (customerID : String) :
    List (Except String GroupsPage) → String → State → Res Unit
  | [], _, _ => .stuck
  | r :: script, pageToken, s =>
    let s1 := s.emit (.listRequest customerID 100 pageToken)
    match r with
    | .error err => .fatal ("Unable to retrieve groups: " ++ err) s1
    | .ok resp =>
      match auditGroups resp.groups s1 with
      | none => .stuck
      | some s2 =>
        if resp.nextPageToken = "" then .done () s2
        else listLoop customerID script resp.nextPageToken s2

/-! ## Token cache (main.go, lines 116-137) -/

/-- The function `saveToken` (lines 116-125).  `os.Create` truncates the file;
the value returned by `Encode` is discarded by the source, so a failed
encoding or write leaves the truncated file and the function returns. -/
def saveToken (env : Env) (path : String) (token : Token) (s : State) : Res Unit :=
  let s1 := s.emit (.stdout ("Saving credential file to: " ++ path ++ "\n"))
  let s2 := s1.emit (.createFile path)
  match env.createErr path with
  | some err => .fatal ("Unable to cache oauth token: " ++ err) s2
  | none =>
    let s3 := s2.setFile path ""
    match env.encodeToken token with
    | .error _ => .done () s3
    | .ok data =>
      let s4 := s3.emit (.writeFile path data)
      match env.writeErr path with
      | some _ => .done () s4
      | none => .done () (s4.setFile path data)

/-- The function `getTokenFromFile` (lines 127-137): the pair `(tok, err)` as
one value, the token being used by the caller only when `err` is nil. -/
def getTokenFromFile (env : Env) (file : String) (s : State) : Except String Token × State :=
  let s1 := s.emit (.openFile file)
  match s1.files file with
  | none => (.error ("open " ++ file ++ ": no such file or directory"), s1)
  | some content => (env.decodeToken content, s1)

/-- The constant `defaultExpiryDelta = 10 * time.Second` of
`golang.org/x/oauth2` (token.go), in nanoseconds. -/
def defaultExpiryDelta : Int := 10 * 1000000000

/-- The method `Token.expired` of `golang.org/x/oauth2` (token.go), which is
library code and not part of `main.go`:

    if t.Expiry.IsZero() { return false }
    return t.Expiry.Round(0).Add(-expiryDelta).Before(timeNow())

A zero expiry never expires; any other token counts as expired from ten
seconds before its expiry. -/
def Token.expired (t : Token) (now : Int) : Bool :=
  if t.expiry = 0 then false else decide (t.expiry - defaultExpiryDelta < now)

/-- The method `Token.Valid` of `golang.org/x/oauth2` (token.go), called at
line 45 of `main.go`:

    return t != nil && t.AccessToken != "" && !t.expired()

The receiver is never nil at line 45 when `err` is nil. -/
def Token.Valid (t : Token) (now : Int) : Bool :=
  t.accessToken != "" && !t.expired now

/-! ## Web authorization (main.go, lines 93-154) -/

/-- The function `startWebServer` (lines 93-114): it registers the handler,
starts the goroutine that listens and returns the server at once. -/
def startWebServer (s : State) : State :=
  s.emit (.startWebServer "localhost:8080")

/-- The goroutine of lines 107-111: the fatal message of a failed
`ListenAndServe`, if it fails. -/
def listenFatal (env : Env) : Option String :=
  match env.listenErr with
  | some err => some ("Could not listen on localhost:8080: " ++ err)
  | none => none

/-- The function `getTokenFromWeb` (lines 139-154).  A failure of the
listening goroutine ends the process while `main` waits at the receive of
line 148, after the prompt of line 146 has been printed. -/
def getTokenFromWeb (env : Env) (config : Config) (s : State) : Res Token :=
  let s1 := startWebServer s
  let authURL := env.authCodeURL config "state-token"
  let s2 := s1.emit (.stdout
    ("Go to the following link in your browser and complete the authentication: \n"
      ++ authURL ++ "\n"))
  match listenFatal env with
  | some msg => .fatal msg s2
  | none =>
    match env.callbackCode with
    | none => .blocked s2
    | some code =>
      let s3 := s2.emit (.exchange code)
      match env.exchange config code with
      | .error err => .fatal ("Unable to retrieve token from web: " ++ err) s3
      | .ok tok => .done tok s3

/-! ## The program (main.go, lines 20-91) -/

/-- The scope `admin.AdminDirectoryGroupReadonlyScope`. -/
def adminDirectoryGroupReadonlyScope : String :=
  "https://www.googleapis.com/auth/admin.directory.group.readonly"

/-- The scope `groupssettings.AppsGroupsSettingsScope`. -/
def appsGroupsSettingsScope : String :=
  "https://www.googleapis.com/auth/apps.groups.settings"

/-- Lines 52-90 of `main`: the two API clients are built from `token`, then
the audit loop runs. -/
def runAudit (env : Env) (customerID : String) (listResponses : List (Except String GroupsPage))
    (token : Token) (s : State) : Res Unit :=
  let s1 := s.emit (.newClient token)
  match env.directoryServiceErr with
  | some err => .fatal ("Unable to create Admin SDK Directory service: " ++ err) s1
  | none =>
    match env.settingsServiceErr with
    | some err => .fatal ("Unable to create Groups Settings service: " ++ err) s1
    | none => listLoop customerID listResponses "" s1

/-- Lines 43-50 of `main`: the cached token is used when it loads and is
valid, otherwise a new one is obtained from the web and saved. -/
def obtainToken (env : Env) (config : Config) (s : State) : Res Token :=
  match getTokenFromFile env "token.json" s with
  | (.ok token, s1) =>
    if token.Valid env.now then
      .done token (s1.emit (.stdout "Reusing existing token.\n"))
    else
      (getTokenFromWeb env config s1).bind fun token s2 =>
        (saveToken env "token.json" token s2).bind fun _ s3 => .done token s3
  | (.error _, s1) =>
    (getTokenFromWeb env config s1).bind fun token s2 =>
      (saveToken env "token.json" token s2).bind fun _ s3 => .done token s3

/-- The function `main` (lines 20-91).  `customerID` and `keyPath` are the
values of the two flags after `flag.Parse`; `listResponses` is the script of
the Directory API. -/
def main (env : Env) (customerID keyPath : String)
    (listResponses : List (Except String GroupsPage)) (s : State) : Res Unit :=
  if customerID = "" then .fatal "customer_id must be provided" s
  else
    let s1 := s.emit (.readFile keyPath)
    match s1.files keyPath with
    | none =>
      .fatal ("Unable to read client secret file: open " ++ keyPath
        ++ ": no such file or directory") s1
    | some b =>
      match env.configFromJSON b [adminDirectoryGroupReadonlyScope, appsGroupsSettingsScope] with
      | .error err => .fatal ("Unable to parse client secret file to config: " ++ err) s1
      | .ok config =>
        (obtainToken env config s1).bind fun token s2 =>
          runAudit env customerID listResponses token s2

/-! ## Definitions used to state and prove the properties -/

/-- The final state of a run, when the model has one. -/
def Res.state? {α : Type} : Res α → Option State
  | .done _ s => some s
  | .fatal _ s => some s
  | .blocked s => some s
  | .stuck => none

/-- The effects of a run, oldest first (none for `stuck`). -/
def Res.trace {α : Type} (r : Res α) : List Event :=
  match r.state? with
  | some s => s.trace
  | none => []

/-- The events `reportWhoCanJoin` adds for one group. -/
def findingEvents (email : String) (settings : GroupSettings) : List Event :=
  (reportWhoCanJoin email settings ⟨fun _ => none, [], []⟩).trace

/-- The events `auditGroups` adds for groups paired with lookup results. -/
def auditEvents : List Group → List (Except String GroupSettings) → List Event
  | g :: gs, .error err :: rs =>
    .settingsRequest g.email
      :: .logPrint ("Unable to retrieve settings for group " ++ g.email ++ ": " ++ err)
      :: auditEvents gs rs
  | g :: gs, .ok settings :: rs =>
    .settingsRequest g.email :: (findingEvents g.email settings ++ auditEvents gs rs)
  | _, _ => []

/-- Groups whose lookup succeeded, with `results` paired to `groups` by position. -/
def succeededGroups (groups : List Group) (results : List (Except String GroupSettings)) :
    List Group :=
  ((groups.zip results).filter fun p => p.2.isOk).map Prod.fst

/-- Results of the lookups that succeeded. -/
def succeededResults (groups : List Group) (results : List (Except String GroupSettings)) :
    List (Except String GroupSettings) :=
  ((groups.zip results).filter fun p => p.2.isOk).map Prod.snd

/-- The page token held by the loop after a run of pages, starting from `tok`. -/
def tokenAfter (tok : String) : List GroupsPage → String
  | [] => tok
  | p :: ps => tokenAfter p.nextPageToken ps

/-- The events `listLoop` adds while it goes through successful pages that
all continue, the first request carrying `tok`. -/
def pagesEvents (customerID : String) :
    String → List GroupsPage → List (Except String GroupSettings) → List Event
  | _, [], _ => []
  | tok, p :: ps, rs =>
    .listRequest customerID 100 tok
      :: (auditEvents p.groups rs
        ++ pagesEvents customerID p.nextPageToken ps (rs.drop p.groups.length))

/-- All groups of a run of pages, in page order. -/
def allGroups (pages : List GroupsPage) : List Group :=
  pages.flatMap GroupsPage.groups

/-- Addresses of the local listeners started, in order. -/
def webServerStartsOf : List Event → List String
  | [] => []
  | .startWebServer a :: es => a :: webServerStartsOf es
  | _ :: es => webServerStartsOf es

/-! ## Sample surroundings for the concrete runs -/

/-- The instant 2026-11-03T12:00:00Z. -/
def sampleNow : Int := 63929304000 * 1000000000

/-- A cached token without expiry (Go's zero time). -/
def tokenNoExpiry : Token := ⟨"ya29.cached", "Bearer", "1//cached", 0⟩

/-- The file `encoding/json` writes for `tokenNoExpiry`. -/
def tokenNoExpiryJson : String :=
  "\x7b\"access_token\":\"ya29.cached\",\"token_type\":\"Bearer\"," ++
  "\"refresh_token\":\"1//cached\",\"expiry\":\"0001-01-01T00:00:00Z\"\x7d\n"

/-- A cached token with an empty access token, expiring 2026-11-03T13:00:00Z. -/
def tokenNoAccess : Token := ⟨"", "Bearer", "1//cached", 63929307600 * 1000000000⟩

/-- The file `encoding/json` writes for `tokenNoAccess`. -/
def tokenNoAccessJson : String :=
  "\x7b\"access_token\":\"\",\"token_type\":\"Bearer\"," ++
  "\"refresh_token\":\"1//cached\",\"expiry\":\"2026-11-03T13:00:00Z\"\x7d\n"

/-- A cached token expiring 2026-11-03T12:00:05Z, five seconds after `sampleNow`. -/
def tokenExpiringSoon : Token := ⟨"ya29.cached", "Bearer", "1//cached", 63929304005 * 1000000000⟩

/-- The file `encoding/json` writes for `tokenExpiringSoon`. -/
def tokenExpiringSoonJson : String :=
  "\x7b\"access_token\":\"ya29.cached\",\"token_type\":\"Bearer\"," ++
  "\"refresh_token\":\"1//cached\",\"expiry\":\"2026-11-03T12:00:05Z\"\x7d\n"

/-- A cached token that expired 2026-11-03T11:00:00Z. -/
def tokenExpired : Token := ⟨"ya29.cached", "Bearer", "1//cached", 63929300400 * 1000000000⟩

/-- The file `encoding/json` writes for `tokenExpired`. -/
def tokenExpiredJson : String :=
  "\x7b\"access_token\":\"ya29.cached\",\"token_type\":\"Bearer\"," ++
  "\"refresh_token\":\"1//cached\",\"expiry\":\"2026-11-03T11:00:00Z\"\x7d\n"

/-- A cached token expiring 2026-11-03T13:00:00Z. -/
def tokenValid : Token := ⟨"ya29.cached", "Bearer", "1//cached", 63929307600 * 1000000000⟩

/-- The file `encoding/json` writes for `tokenValid`. -/
def tokenValidJson : String :=
  "\x7b\"access_token\":\"ya29.cached\",\"token_type\":\"Bearer\"," ++
  "\"refresh_token\":\"1//cached\",\"expiry\":\"2026-11-03T13:00:00Z\"\x7d\n"

/-- The token the sample token endpoint returns, expiring 2026-11-03T13:00:00Z. -/
def tokenFresh : Token := ⟨"ya29.fresh", "Bearer", "1//fresh", 63929307600 * 1000000000⟩

/-- The file `encoding/json` writes for `tokenFresh`. -/
def tokenFreshJson : String :=
  "\x7b\"access_token\":\"ya29.fresh\",\"token_type\":\"Bearer\"," ++
  "\"refresh_token\":\"1//fresh\",\"expiry\":\"2026-11-03T13:00:00Z\"\x7d\n"

/-- The part of `encoding/json` the concrete runs need: files and the tokens
they hold. -/
def sampleCodec : List (String × Token) :=
  [(tokenNoExpiryJson, tokenNoExpiry), (tokenNoAccessJson, tokenNoAccess),
   (tokenExpiringSoonJson, tokenExpiringSoon), (tokenExpiredJson, tokenExpired),
   (tokenValidJson, tokenValid), (tokenFreshJson, tokenFresh)]

/-- Surroundings for the concrete runs: the clock at `sampleNow`, a browser
that calls back with a code, a token endpoint that returns `tokenFresh`, and
writes that fail with `writeErr` when it is given. -/
def sampleEnv (writeErr : Option String) : Env where
  now := sampleNow
  createErr := fun _ => none
  writeErr := fun _ => writeErr
  configFromJSON := fun b scopes => .ok ⟨b, scopes⟩
  authCodeURL := fun _ state => "https://accounts.google.com/o/oauth2/auth?state=" ++ state
  listenErr := none
  callbackCode := some "4/0AfJohX"
  exchange := fun _ _ => .ok tokenFresh
  encodeToken := fun t =>
    match sampleCodec.find? (fun p => p.2 = t) with
    | some p => .ok p.1
    | none => .error "json: unsupported value"
  decodeToken := fun content =>
    if content = "" then .error "EOF"
    else
      match sampleCodec.find? (fun p => p.1 = content) with
      | some p => .ok p.2
      | none => .error "invalid character"
  directoryServiceErr := none
  settingsServiceErr := none

/-- A start state with a key file and, when given, a token cache. -/
def sampleState (tokenFile : Option String) : State where
  files := fun p =>
    if p = "key.json" then some "client-secret" else if p = "token.json" then tokenFile else none
  settingsResponses := []
  trace := []

/-- Two pages that continue: groups a and b, then group c. -/
def samplePages : List GroupsPage :=
  [⟨[⟨"a@example.com", "A", ""⟩, ⟨"b@example.com", "B", ""⟩], "page-2"⟩,
   ⟨[⟨"c@example.com", "C", ""⟩], "page-3"⟩]

/-- A last page: group d and no continuation token. -/
def sampleLastPage : GroupsPage := ⟨[⟨"d@example.com", "D", ""⟩], ""⟩

/-- A state in the middle of a run whose settings script answers four lookups:
open to the domain, failure, open to anyone, invitation only. -/
def sampleAuditState : State where
  files := fun _ => none
  settingsResponses :=
    [.ok ⟨"ALL_IN_DOMAIN_CAN_JOIN"⟩, .error "googleapi: Error 503", .ok ⟨"ANYONE_CAN_JOIN"⟩,
     .ok ⟨"INVITED_CAN_JOIN"⟩]
  trace := []

/-! ## Lemmas -/

theorem stdoutOf_append (a b : List Event) : stdoutOf (a ++ b) = stdoutOf a ++ stdoutOf b := by
  induction a with
  | nil => rfl
  | cons e es ih => cases e <;> simp [stdoutOf, ih]

theorem lookupsOf_append (a b : List Event) :
    lookupsOf (a ++ b) = lookupsOf a ++ lookupsOf b := by
  induction a with
  | nil => rfl
  | cons e es ih => cases e <;> simp [lookupsOf, ih]

theorem logOf_append (a b : List Event) : logOf (a ++ b) = logOf a ++ logOf b := by
  induction a with
  | nil => rfl
  | cons e es ih => cases e <;> simp [logOf, ih]

theorem reportWhoCanJoin_eq (email : String) (settings : GroupSettings) (s : State) :
    reportWhoCanJoin email settings s =
      ⟨s.files, s.settingsResponses, s.trace ++ findingEvents email settings⟩ := by
  unfold findingEvents reportWhoCanJoin
  split
  · simp [State.emit]
  · split <;> simp [State.emit]

theorem lookupsOf_findingEvents (email : String) (settings : GroupSettings) :
    lookupsOf (findingEvents email settings) = [] := by
  unfold findingEvents reportWhoCanJoin
  split
  · simp [State.emit, lookupsOf]
  · split <;> simp [State.emit, lookupsOf]

/-- With a settings script at least as long as the page, `auditGroups` ends,
consumes one result per group and appends `auditEvents`. -/
theorem auditGroups_eq (gs : List Group) :
    ∀ (files : String → Option String) (rs : List (Except String GroupSettings))
      (tr : List Event), gs.length ≤ rs.length →
      auditGroups gs ⟨files, rs, tr⟩ = some ⟨files, rs.drop gs.length, tr ++ auditEvents gs rs⟩ := by
  induction gs with
  | nil => intro files rs tr _; cases rs <;> simp [auditGroups, auditEvents]
  | cons g gs ih =>
    intro files rs tr h
    cases rs with
    | nil => simp at h
    | cons r rs =>
      have h2 : gs.length ≤ rs.length := by simpa using h
      cases r with
      | error err => simp [auditGroups, auditEvents, State.emit, ih _ _ _ h2]
      | ok st =>
        simp [auditGroups, auditEvents, State.emit, reportWhoCanJoin_eq, ih _ _ _ h2]

theorem lookupsOf_auditEvents (gs : List Group) :
    ∀ rs : List (Except String GroupSettings), gs.length ≤ rs.length →
      lookupsOf (auditEvents gs rs) = gs.map Group.email := by
  induction gs with
  | nil => intro rs _; cases rs <;> simp [auditEvents, lookupsOf]
  | cons g gs ih =>
    intro rs h
    cases rs with
    | nil => simp at h
    | cons r rs =>
      have h2 : gs.length ≤ rs.length := by simpa using h
      cases r with
      | error err => simp [auditEvents, lookupsOf, ih _ h2]
      | ok st =>
        simp [auditEvents, lookupsOf, lookupsOf_append, lookupsOf_findingEvents, ih _ h2]

theorem succeeded_cons_error (g : Group) (gs : List Group) (err : String)
    (rs : List (Except String GroupSettings)) :
    succeededGroups (g :: gs) (.error err :: rs) = succeededGroups gs rs
      ∧ succeededResults (g :: gs) (.error err :: rs) = succeededResults gs rs := by
  constructor <;> rfl

theorem succeeded_cons_ok (g : Group) (gs : List Group) (st : GroupSettings)
    (rs : List (Except String GroupSettings)) :
    succeededGroups (g :: gs) (.ok st :: rs) = g :: succeededGroups gs rs
      ∧ succeededResults (g :: gs) (.ok st :: rs) = .ok st :: succeededResults gs rs := by
  constructor <;> rfl

theorem stdoutOf_auditEvents_succeeded (gs : List Group) :
    ∀ rs : List (Except String GroupSettings),
      stdoutOf (auditEvents (succeededGroups gs rs) (succeededResults gs rs)) =
        stdoutOf (auditEvents gs rs) := by
  induction gs with
  | nil => intro rs; cases rs <;> simp [succeededGroups, succeededResults, auditEvents]
  | cons g gs ih =>
    intro rs
    cases rs with
    | nil => simp [succeededGroups, succeededResults, auditEvents]
    | cons r rs =>
      cases r with
      | error err =>
        rw [(succeeded_cons_error g gs err rs).1, (succeeded_cons_error g gs err rs).2, ih rs]
        simp [auditEvents, stdoutOf]
      | ok st =>
        rw [(succeeded_cons_ok g gs st rs).1, (succeeded_cons_ok g gs st rs).2]
        simp [auditEvents, stdoutOf, stdoutOf_append, ih rs]

theorem stdoutOf_findingEvents (email : String) (settings : GroupSettings) :
    stdoutOf (findingEvents email settings) =
      if settings.whoCanJoin = "ALL_IN_DOMAIN_CAN_JOIN" then
        ["Group: " ++ email ++ " | allows anyone in the domain to join\n"]
      else if settings.whoCanJoin = "ANYONE_CAN_JOIN" then
        ["Group: " ++ email ++ " | allows anyone anywhere to join\n"]
      else [] := by
  unfold findingEvents reportWhoCanJoin
  split
  · simp [State.emit, stdoutOf]
  · split <;> simp [State.emit, stdoutOf]

theorem logOf_findingEvents (email : String) (settings : GroupSettings) :
    logOf (findingEvents email settings) = [] := by
  unfold findingEvents reportWhoCanJoin
  split
  · simp [State.emit, logOf]
  · split <;> simp [State.emit, logOf]

/-- Standard output of one pass of the group loop, line by line. -/
theorem stdoutOf_auditEvents (gs : List Group) :
    ∀ rs : List (Except String GroupSettings),
      stdoutOf (auditEvents gs rs) =
        (gs.zip rs).flatMap fun p =>
          match p.2 with
          | .error _ => []
          | .ok settings =>
            if settings.whoCanJoin = "ALL_IN_DOMAIN_CAN_JOIN" then
              ["Group: " ++ p.1.email ++ " | allows anyone in the domain to join\n"]
            else if settings.whoCanJoin = "ANYONE_CAN_JOIN" then
              ["Group: " ++ p.1.email ++ " | allows anyone anywhere to join\n"]
            else [] := by
  induction gs with
  | nil => intro rs; cases rs <;> simp [auditEvents, stdoutOf]
  | cons g gs ih =>
    intro rs
    cases rs with
    | nil => simp [auditEvents, stdoutOf]
    | cons r rs =>
      cases r with
      | error err => simp [auditEvents, stdoutOf, ih rs]
      | ok st =>
        simp [auditEvents, stdoutOf, stdoutOf_append, stdoutOf_findingEvents, ih rs]

theorem succeeded_length (gs : List Group) (rs : List (Except String GroupSettings)) :
    (succeededGroups gs rs).length ≤ (succeededResults gs rs).length := by
  simp [succeededGroups, succeededResults]

theorem listRequestsOf_append (a b : List Event) :
    listRequestsOf (a ++ b) = listRequestsOf a ++ listRequestsOf b := by
  induction a with
  | nil => rfl
  | cons e es ih => cases e <;> simp [listRequestsOf, ih]

theorem listRequestsOf_findingEvents (email : String) (settings : GroupSettings) :
    listRequestsOf (findingEvents email settings) = [] := by
  unfold findingEvents reportWhoCanJoin
  split
  · simp [State.emit, listRequestsOf, Res.trace]
  · split <;> simp [State.emit, listRequestsOf]

theorem listRequestsOf_auditEvents (gs : List Group) :
    ∀ rs : List (Except String GroupSettings), listRequestsOf (auditEvents gs rs) = [] := by
  induction gs with
  | nil => intro rs; cases rs <;> simp [auditEvents, listRequestsOf]
  | cons g gs ih =>
    intro rs
    cases rs with
    | nil => simp [auditEvents, listRequestsOf]
    | cons r rs =>
      cases r with
      | error err => simp [auditEvents, listRequestsOf, ih rs]
      | ok st =>
        simp [auditEvents, listRequestsOf, listRequestsOf_append,
          listRequestsOf_findingEvents, ih rs]

theorem auditEvents_append (a b : List Group) :
    ∀ rs : List (Except String GroupSettings), a.length ≤ rs.length →
      auditEvents (a ++ b) rs = auditEvents a rs ++ auditEvents b (rs.drop a.length) := by
  induction a with
  | nil => intro rs _; cases rs <;> simp [auditEvents]
  | cons g gs ih =>
    intro rs h
    cases rs with
    | nil => simp at h
    | cons r rs =>
      have h2 : gs.length ≤ rs.length := by simpa using h
      cases r with
      | error err => simp [auditEvents, ih rs h2]
      | ok st => simp [auditEvents, ih rs h2]

theorem allGroups_cons (p : GroupsPage) (ps : List GroupsPage) :
    allGroups (p :: ps) = p.groups ++ allGroups ps := by
  simp [allGroups]

/-- While the pages continue, `listLoop` audits each page and goes on with
the token of the last one. -/
theorem listLoop_pages (customerID : String) (tail : List (Except String GroupsPage))
    (pages : List GroupsPage) :
    ∀ (tok : String) (files : String → Option String)
      (rs : List (Except String GroupSettings)) (tr : List Event),
      (∀ p ∈ pages, p.nextPageToken ≠ "") → (allGroups pages).length ≤ rs.length →
      listLoop customerID (pages.map .ok ++ tail) tok ⟨files, rs, tr⟩ =
        listLoop customerID tail (tokenAfter tok pages)
          ⟨files, rs.drop (allGroups pages).length,
            tr ++ pagesEvents customerID tok pages rs⟩ := by
  induction pages with
  | nil => intro tok files rs tr _ _; simp [tokenAfter, pagesEvents, allGroups]
  | cons p ps ih =>
    intro tok files rs tr hne hlen
    rw [allGroups_cons, List.length_append] at hlen
    have h1 : p.groups.length ≤ rs.length := by omega
    have h2 : (allGroups ps).length ≤ (rs.drop p.groups.length).length := by
      simp only [List.length_drop]; omega
    have hp : p.nextPageToken ≠ "" := hne p (by simp)
    have hps : ∀ q ∈ ps, q.nextPageToken ≠ "" := fun q hq => hne q (by simp [hq])
    simp only [List.map_cons, List.cons_append, listLoop, State.emit,
      auditGroups_eq p.groups files rs _ h1, if_neg hp]
    have step := ih p.nextPageToken files (rs.drop p.groups.length)
      (tr ++ [.listRequest customerID 100 tok] ++ auditEvents p.groups rs) hps h2
    refine Eq.trans step ?_
    simp [tokenAfter, pagesEvents, allGroups_cons, List.drop_drop, Nat.add_comm]

theorem listRequestsOf_pagesEvents (customerID : String) (pages : List GroupsPage) :
    ∀ (tok : String) (rs : List (Except String GroupSettings)),
      listRequestsOf (pagesEvents customerID tok pages rs)
          ++ [(customerID, 100, tokenAfter tok pages)] =
        (tok :: pages.map GroupsPage.nextPageToken).map fun t => (customerID, 100, t) := by
  induction pages with
  | nil => intro tok rs; simp [pagesEvents, listRequestsOf, tokenAfter]
  | cons p ps ih =>
    intro tok rs
    have := ih p.nextPageToken (rs.drop p.groups.length)
    simp only [pagesEvents, listRequestsOf, listRequestsOf_append, listRequestsOf_auditEvents,
      tokenAfter, List.nil_append, List.cons_append, this]
    simp

theorem pagesEvents_observed (customerID : String) (pages : List GroupsPage) :
    ∀ (tok : String) (rs : List (Except String GroupSettings)),
      (allGroups pages).length ≤ rs.length →
      stdoutOf (pagesEvents customerID tok pages rs) = stdoutOf (auditEvents (allGroups pages) rs)
      ∧ logOf (pagesEvents customerID tok pages rs) = logOf (auditEvents (allGroups pages) rs)
      ∧ lookupsOf (pagesEvents customerID tok pages rs) =
          lookupsOf (auditEvents (allGroups pages) rs) := by
  induction pages with
  | nil => intro tok rs _; cases rs <;> simp [pagesEvents, allGroups, auditEvents]
  | cons p ps ih =>
    intro tok rs hlen
    rw [allGroups_cons, List.length_append] at hlen
    have h1 : p.groups.length ≤ rs.length := by omega
    have h2 : (allGroups ps).length ≤ (rs.drop p.groups.length).length := by
      simp only [List.length_drop]; omega
    obtain ⟨i1, i2, i3⟩ := ih p.nextPageToken (rs.drop p.groups.length) h2
    rw [allGroups_cons, auditEvents_append _ _ rs h1]
    simp [pagesEvents, stdoutOf, logOf, lookupsOf, stdoutOf_append, logOf_append,
      lookupsOf_append, i1, i2, i3]

theorem tokenAfter_eq (pages : List GroupsPage) :
    ∀ tok : String, tokenAfter tok pages = (pages.map GroupsPage.nextPageToken).getLastD tok := by
  induction pages with
  | nil => intro tok; rfl
  | cons p ps ih => intro tok; rw [tokenAfter, ih, List.map_cons, List.getLastD_cons]

theorem webServerStartsOf_append (a b : List Event) :
    webServerStartsOf (a ++ b) = webServerStartsOf a ++ webServerStartsOf b := by
  induction a with
  | nil => rfl
  | cons e es ih => cases e <;> simp [webServerStartsOf, ih]

theorem webServerStartsOf_findingEvents (email : String) (settings : GroupSettings) :
    webServerStartsOf (findingEvents email settings) = [] := by
  unfold findingEvents reportWhoCanJoin
  split
  · simp [State.emit, webServerStartsOf]
  · split <;> simp [State.emit, webServerStartsOf]

/-- The group loop starts no listener, whatever the settings script. -/
theorem auditGroups_starts_no_server (gs : List Group) :
    ∀ s s1 : State, auditGroups gs s = some s1 →
      webServerStartsOf s1.trace = webServerStartsOf s.trace := by
  induction gs with
  | nil => intro s s1 h; simp [auditGroups] at h; rw [h]
  | cons g gs ih =>
    intro s s1 h
    obtain ⟨files, rs, tr⟩ := s
    cases rs with
    | nil => simp [auditGroups] at h
    | cons r rs =>
      cases r with
      | error err =>
        simp only [auditGroups, State.emit] at h
        rw [ih _ _ h]
        simp [webServerStartsOf_append, webServerStartsOf]
      | ok st =>
        simp only [auditGroups, State.emit, reportWhoCanJoin_eq] at h
        rw [ih _ _ h]
        simp [webServerStartsOf_append, webServerStartsOf, webServerStartsOf_findingEvents]

/-- The pagination loop starts no listener, whatever the two scripts. -/
theorem listLoop_starts_no_server (customerID : String)
    (script : List (Except String GroupsPage)) :
    ∀ (tok : String) (s s1 : State), s1 ∈ (listLoop customerID script tok s).state? →
      webServerStartsOf s1.trace = webServerStartsOf s.trace := by
  induction script with
  | nil => intro tok s s1 h; simp [listLoop, Res.state?] at h
  | cons r script ih =>
    intro tok s s1 h
    cases r with
    | error err =>
      simp only [listLoop, Res.state?, Option.mem_def, Option.some.injEq] at h
      rw [← h]
      simp [State.emit, webServerStartsOf_append, webServerStartsOf]
    | ok resp =>
      simp only [listLoop] at h
      cases ha : auditGroups resp.groups (s.emit (.listRequest customerID 100 tok)) with
      | none => simp [ha, Res.state?] at h
      | some s2 =>
        have h2 := auditGroups_starts_no_server _ _ _ ha
        simp only [State.emit, webServerStartsOf_append, webServerStartsOf,
          List.append_nil] at h2
        simp only [ha] at h
        split at h
        · simp only [Res.state?, Option.mem_def, Option.some.injEq] at h
          rw [← h, h2]
        · rw [ih _ _ _ h, h2]

/-- Building the clients and auditing starts no listener. -/
theorem runAudit_starts_no_server (env : Env) (customerID : String)
    (script : List (Except String GroupsPage)) (token : Token) (s s1 : State)
    (h : s1 ∈ (runAudit env customerID script token s).state?) :
    webServerStartsOf s1.trace = webServerStartsOf s.trace := by
  unfold runAudit at h
  have he : webServerStartsOf (s.emit (.newClient token)).trace = webServerStartsOf s.trace := by
    simp [State.emit, webServerStartsOf_append, webServerStartsOf]
  split at h
  · simp only [Res.state?, Option.mem_def, Option.some.injEq] at h
    rw [← h, he]
  · split at h
    · simp only [Res.state?, Option.mem_def, Option.some.injEq] at h
      rw [← h, he]
    · rw [listLoop_starts_no_server _ _ _ _ _ h, he]

theorem Res.bind_assoc {α β γ : Type} (r : Res α) (f : α → State → Res β)
    (g : β → State → Res γ) :
    (r.bind f).bind g = r.bind fun a s => (f a s).bind g := by
  cases r <;> rfl

theorem Token.Valid_of_expired (t : Token) (now : Int) (hnz : t.expiry ≠ 0)
    (hexp : t.expiry < now) : t.Valid now = false := by
  have : t.expiry - defaultExpiryDelta < now := by
    unfold defaultExpiryDelta; omega
  simp [Token.Valid, Token.expired, hnz, this]

theorem Token.Valid_of_future (t : Token) (now : Int) (hacc : t.accessToken ≠ "")
    (hfut : now + defaultExpiryDelta ≤ t.expiry) : t.Valid now = true := by
  have : ¬ t.expiry - defaultExpiryDelta < now := by omega
  by_cases hz : t.expiry = 0
  · simp [Token.Valid, Token.expired, hz, hacc]
  · simp [Token.Valid, Token.expired, hz, hacc, this]

/-! ## Properties of the audit of one page -/

/-- C1: for a group whose lookup succeeds with `whoCanJoin = w`, the loop
prints exactly the "anyone in the domain" line when `w` is
`ALL_IN_DOMAIN_CAN_JOIN`, exactly the "anyone anywhere" line when `w` is
`ANYONE_CAN_JOIN`, and for every other string adds nothing but the lookup
itself; in particular for `INVITED_CAN_JOIN`, the empty string and
`anyone_can_join`.  The loop ends normally in every case. -/
theorem whoCanJoin_classification (g : Group) (w : String)
    (files : String → Option String) (rest : List (Except String GroupSettings))
    (tr : List Event) :
    auditGroups [g] ⟨files, .ok ⟨w⟩ :: rest, tr⟩ =
      some ⟨files, rest, tr ++ .settingsRequest g.email ::
        (if w = "ALL_IN_DOMAIN_CAN_JOIN" then
          [.stdout ("Group: " ++ g.email ++ " | allows anyone in the domain to join\n")]
        else if w = "ANYONE_CAN_JOIN" then
          [.stdout ("Group: " ++ g.email ++ " | allows anyone anywhere to join\n")]
        else [])⟩
    ∧ auditGroups [g] ⟨files, .ok ⟨"INVITED_CAN_JOIN"⟩ :: rest, tr⟩ =
      some ⟨files, rest, tr ++ [.settingsRequest g.email]⟩
    ∧ auditGroups [g] ⟨files, .ok ⟨""⟩ :: rest, tr⟩ =
      some ⟨files, rest, tr ++ [.settingsRequest g.email]⟩
    ∧ auditGroups [g] ⟨files, .ok ⟨"anyone_can_join"⟩ :: rest, tr⟩ =
      some ⟨files, rest, tr ++ [.settingsRequest g.email]⟩ := by
  refine ⟨?_, ?_, ?_, ?_⟩
  · simp only [auditGroups, reportWhoCanJoin, State.emit]
    split
    · simp
    · split <;> simp
  · simp [auditGroups, reportWhoCanJoin, State.emit]
  · simp [auditGroups, reportWhoCanJoin, State.emit]
  · simp [auditGroups, reportWhoCanJoin, State.emit]

/-- C3: with one lookup result per listed group, the loop reaches the end of
the page whatever fails (every group is looked up, in order), and standard
output is the same as for the run over the groups whose lookup succeeded,
the failing ones removed: it holds, in order, the finding line of each group
whose lookup succeeded with one of the two constants and nothing for a group
whose lookup failed.  For A, B, C with only B failing, C is looked up,
standard output holds the finding lines of A and of C and nothing else, and
the log holds the warning for B. -/
theorem failed_lookup_is_skipped (gs : List Group) (rs : List (Except String GroupSettings))
    (files : String → Option String) (tr : List Event) (h : rs.length = gs.length) :
    (∃ s1 s2, auditGroups gs ⟨files, rs, tr⟩ = some s1
      ∧ auditGroups (succeededGroups gs rs) ⟨files, succeededResults gs rs, tr⟩ = some s2
      ∧ stdoutOf s1.trace = stdoutOf s2.trace
      ∧ lookupsOf s1.trace = lookupsOf tr ++ gs.map Group.email
      ∧ s1.settingsResponses = []
      ∧ stdoutOf s1.trace = stdoutOf tr ++
          (gs.zip rs).flatMap fun p =>
            match p.2 with
            | .error _ => []
            | .ok settings =>
              if settings.whoCanJoin = "ALL_IN_DOMAIN_CAN_JOIN" then
                ["Group: " ++ p.1.email ++ " | allows anyone in the domain to join\n"]
              else if settings.whoCanJoin = "ANYONE_CAN_JOIN" then
                ["Group: " ++ p.1.email ++ " | allows anyone anywhere to join\n"]
              else [])
    ∧ ∀ (a b c : Group) (sa sc : GroupSettings) (err : String),
      ∃ s3, auditGroups [a, b, c] ⟨files, [.ok sa, .error err, .ok sc], tr⟩ = some s3
        ∧ lookupsOf s3.trace = lookupsOf tr ++ [a.email, b.email, c.email]
        ∧ stdoutOf s3.trace =
            stdoutOf tr ++ stdoutOf (findingEvents a.email sa)
              ++ stdoutOf (findingEvents c.email sc)
        ∧ stdoutOf s3.trace =
            stdoutOf tr
              ++ (if sa.whoCanJoin = "ALL_IN_DOMAIN_CAN_JOIN" then
                    ["Group: " ++ a.email ++ " | allows anyone in the domain to join\n"]
                  else if sa.whoCanJoin = "ANYONE_CAN_JOIN" then
                    ["Group: " ++ a.email ++ " | allows anyone anywhere to join\n"]
                  else [])
              ++ (if sc.whoCanJoin = "ALL_IN_DOMAIN_CAN_JOIN" then
                    ["Group: " ++ c.email ++ " | allows anyone in the domain to join\n"]
                  else if sc.whoCanJoin = "ANYONE_CAN_JOIN" then
                    ["Group: " ++ c.email ++ " | allows anyone anywhere to join\n"]
                  else [])
        ∧ logOf s3.trace =
            logOf tr ++ ["Unable to retrieve settings for group " ++ b.email ++ ": " ++ err] := by
  constructor
  · refine ⟨_, _, auditGroups_eq gs files rs tr (by omega),
      auditGroups_eq _ files _ tr (succeeded_length gs rs), ?_, ?_, ?_, ?_⟩
    · simp [stdoutOf_append, stdoutOf_auditEvents_succeeded]
    · simp [lookupsOf_append, lookupsOf_auditEvents gs rs (by omega)]
    · simp [h]
    · simp only [stdoutOf_append, stdoutOf_auditEvents]
  · intro a b c sa sc err
    refine ⟨_, auditGroups_eq [a, b, c] files _ tr (by simp), ?_, ?_, ?_, ?_⟩
    · simp [auditEvents, lookupsOf_append, lookupsOf, lookupsOf_findingEvents]
    · simp [auditEvents, stdoutOf_append, stdoutOf]
    · simp only [auditEvents, stdoutOf_append, stdoutOf, stdoutOf_findingEvents,
        List.append_nil, List.append_assoc]
    · simp [auditEvents, logOf_append, logOf, logOf_findingEvents]

/-- C4: while one page is processed, the settings lookups issued are exactly
the emails of its groups, in order, one per group whether the lookup succeeds
or fails: the events added hold these lookups and no others, and exactly one
result per group is taken from the settings script. -/
theorem one_lookup_per_group (gs : List Group) (s : State)
    (h : gs.length ≤ s.settingsResponses.length) :
    ∃ s1 added, auditGroups gs s = some s1
      ∧ s1.trace = s.trace ++ added
      ∧ lookupsOf added = gs.map Group.email
      ∧ s1.settingsResponses = s.settingsResponses.drop gs.length := by
  obtain ⟨files, rs, tr⟩ := s
  exact ⟨_, auditEvents gs rs, auditGroups_eq gs files rs tr h, rfl,
    lookupsOf_auditEvents gs rs h, rfl⟩

/-! ## Properties of the pagination loop -/

/-- C2: for a chain of N = `pages.length + 1` successful pages, the first
N - 1 with a non-empty continuation token and the N-th (`last`) with an empty
one, the loop ends normally whatever the API would answer afterwards; it
issues exactly N list requests, the first with the empty page token and each
later one with the token of the response before it; the lookups are the
emails of the groups of the N pages in page order and within-page order, and
standard output, the log and the use of the settings script are those of one
pass of the group loop over the concatenation of the pages. -/
theorem pagination_concatenates_pages (customerID : String) (pages : List GroupsPage)
    (last : GroupsPage) (s : State)
    (hpages : ∀ p ∈ pages, p.nextPageToken ≠ "") (hlast : last.nextPageToken = "")
    (hlen : (allGroups (pages ++ [last])).length ≤ s.settingsResponses.length) :
    ∃ s1 added,
      (∀ rest, listLoop customerID ((pages ++ [last]).map .ok ++ rest) "" s = .done () s1)
      ∧ s1.trace = s.trace ++ added
      ∧ listRequestsOf added =
          ("" :: pages.map GroupsPage.nextPageToken).map (fun t => (customerID, 100, t))
      ∧ (listRequestsOf added).length = pages.length + 1
      ∧ lookupsOf added = (allGroups (pages ++ [last])).map Group.email
      ∧ ∃ s2, auditGroups (allGroups (pages ++ [last])) s = some s2
          ∧ stdoutOf s1.trace = stdoutOf s2.trace
          ∧ logOf s1.trace = logOf s2.trace
          ∧ s1.settingsResponses = s2.settingsResponses := by
  obtain ⟨files, rs, tr⟩ := s
  have hall : allGroups (pages ++ [last]) = allGroups pages ++ last.groups := by
    simp [allGroups]
  simp only [hall, List.length_append] at hlen
  have h1 : (allGroups pages).length ≤ rs.length := by omega
  have h2 : last.groups.length ≤ (rs.drop (allGroups pages).length).length := by
    simp only [List.length_drop]; omega
  obtain ⟨o1, o2, o3⟩ := pagesEvents_observed customerID pages "" rs h1
  have hreq := listRequestsOf_pagesEvents customerID pages "" rs
  refine ⟨⟨files, (rs.drop (allGroups pages).length).drop last.groups.length,
      (tr ++ pagesEvents customerID "" pages rs
        ++ [.listRequest customerID 100 (tokenAfter "" pages)])
        ++ auditEvents last.groups (rs.drop (allGroups pages).length)⟩,
    pagesEvents customerID "" pages rs
      ++ .listRequest customerID 100 (tokenAfter "" pages)
        :: auditEvents last.groups (rs.drop (allGroups pages).length),
    ?_, by simp, ?_, ?_, ?_, ?_⟩
  · intro rest
    rw [List.map_append, List.append_assoc, listLoop_pages customerID _ pages "" files rs tr
      hpages h1]
    simp only [List.map_cons, List.map_nil, List.cons_append, List.nil_append, listLoop,
      State.emit, auditGroups_eq last.groups files _ _ h2, hlast, if_true]
  · rw [← hreq]
    simp [listRequestsOf_append, listRequestsOf, listRequestsOf_auditEvents]
  · have := congrArg List.length hreq
    simp only [List.length_append, List.length_map, List.length_cons, List.length_nil] at this
    simp [listRequestsOf_append, listRequestsOf, listRequestsOf_auditEvents]
    omega
  · rw [hall, ← lookupsOf_auditEvents _ rs (by simp; omega), auditEvents_append _ _ rs h1]
    simp [lookupsOf_append, lookupsOf, o3]
  · refine ⟨_, auditGroups_eq _ files rs tr (by rw [hall]; simp; omega), ?_, ?_, ?_⟩
    · rw [hall, auditEvents_append _ _ rs h1]
      simp [stdoutOf_append, stdoutOf, o1]
    · rw [hall, auditEvents_append _ _ rs h1]
      simp [logOf_append, logOf, o2]
    · simp [hall, List.drop_drop, Nat.add_comm]

/-- C5: when the k-th list request fails (k = `pages.length + 1`, the k - 1
pages before it successful and continuing), the run ends at once with the
diagnostic `Unable to retrieve groups: err`, whatever the API would answer
afterwards: the failed request is the last effect of the run, exactly k list
requests were issued (none repeated), and the lookups and standard output
are those of the groups of pages 1..k-1. -/
theorem list_failure_is_fatal (customerID : String) (pages : List GroupsPage) (err : String)
    (s : State) (hpages : ∀ p ∈ pages, p.nextPageToken ≠ "")
    (hlen : (allGroups pages).length ≤ s.settingsResponses.length) :
    ∃ s1 before,
      (∀ rest, listLoop customerID (pages.map .ok ++ .error err :: rest) "" s =
        .fatal ("Unable to retrieve groups: " ++ err) s1)
      ∧ s1.trace = s.trace ++ before
          ++ [.listRequest customerID 100 ((pages.map GroupsPage.nextPageToken).getLastD "")]
      ∧ listRequestsOf before ++ [(customerID, 100,
            (pages.map GroupsPage.nextPageToken).getLastD "")] =
          ("" :: pages.map GroupsPage.nextPageToken).map (fun t => (customerID, 100, t))
      ∧ (listRequestsOf before).length = pages.length
      ∧ lookupsOf before = (allGroups pages).map Group.email
      ∧ ∃ s2, auditGroups (allGroups pages) s = some s2
          ∧ stdoutOf s1.trace = stdoutOf s2.trace
          ∧ lookupsOf s1.trace = lookupsOf s2.trace
          ∧ s1.settingsResponses = s2.settingsResponses := by
  obtain ⟨files, rs, tr⟩ := s
  simp only at hlen
  obtain ⟨o1, o2, o3⟩ := pagesEvents_observed customerID pages "" rs hlen
  have hreq := listRequestsOf_pagesEvents customerID pages "" rs
  rw [tokenAfter_eq] at hreq
  refine ⟨⟨files, rs.drop (allGroups pages).length,
      tr ++ pagesEvents customerID "" pages rs
        ++ [.listRequest customerID 100 ((pages.map GroupsPage.nextPageToken).getLastD "")]⟩,
    pagesEvents customerID "" pages rs, ?_, rfl, hreq, ?_, ?_, ?_⟩
  · intro rest
    rw [listLoop_pages customerID _ pages "" files rs tr hpages hlen]
    simp [listLoop, State.emit, tokenAfter_eq]
  · have := congrArg List.length hreq
    simpa using this
  · rw [o3, lookupsOf_auditEvents _ rs hlen]
  · refine ⟨_, auditGroups_eq _ files rs tr hlen, ?_, ?_, rfl⟩
    · simp [stdoutOf_append, stdoutOf, o1]
    · simp [lookupsOf_append, lookupsOf, o3]

/-! ## Properties of start-up and of the token cache -/

/-- C6: with an empty `customer_id` the run ends with the fatal message
`customer_id must be provided` in the state it started in: nothing was read,
written, started or requested. -/
theorem missing_customer_id_is_fatal (env : Env) (keyPath : String)
    (listResponses : List (Except String GroupsPage)) (s : State) :
    main env "" keyPath listResponses s = .fatal "customer_id must be provided" s := by
  simp [main]

/-- C7, the claim as stated fails: a cached token whose expiry is Go's zero
time loads, its expiry is earlier than the clock, and `main` reuses it (no
listener is started and the clients are built from it). -/
theorem zero_expiry_token_is_reused :
    (getTokenFromFile (sampleEnv none) "token.json" (sampleState (some tokenNoExpiryJson))).1 =
      .ok tokenNoExpiry
    ∧ tokenNoExpiry.expiry < (sampleEnv none).now
    ∧ (main (sampleEnv none) "C01" "key.json" [.ok ⟨[], ""⟩]
        (sampleState (some tokenNoExpiryJson))).trace =
      [.readFile "key.json", .openFile "token.json", .stdout "Reusing existing token.\n",
       .newClient tokenNoExpiry, .listRequest "C01" 100 ""] :=
  ⟨rfl, by decide, by decide⟩

/-- C7, amended: when `token.json` decodes to a token whose expiry is not the
zero time and is earlier than the clock, `main` is the web authorization flow
followed by `saveToken` of the token it returns and by the audit with the
clients built from that token; when the flow succeeds with `fresh` and the
cache file can be created, the effects up to the save are the two reads, the
start of the listener, the prompt and the exchange, and the audit runs on
`fresh`. -/
theorem expired_token_is_replaced (env : Env) (customerID keyPath : String)
    (listResponses : List (Except String GroupsPage)) (s : State) (b content : String)
    (config : Config) (cached : Token)
    (hid : customerID ≠ "") (hkey : s.files keyPath = some b)
    (hcfg : env.configFromJSON b [adminDirectoryGroupReadonlyScope, appsGroupsSettingsScope] =
      .ok config)
    (hfile : s.files "token.json" = some content) (hdec : env.decodeToken content = .ok cached)
    (hnz : cached.expiry ≠ 0) (hexp : cached.expiry < env.now) :
    main env customerID keyPath listResponses s =
      ((getTokenFromWeb env config
          ((s.emit (.readFile keyPath)).emit (.openFile "token.json"))).bind
        fun token s2 => (saveToken env "token.json" token s2).bind
          fun _ s3 => runAudit env customerID listResponses token s3)
    ∧ ∀ (code : String) (fresh : Token), env.listenErr = none → env.callbackCode = some code →
        env.exchange config code = .ok fresh → env.createErr "token.json" = none →
        ∃ s3, saveToken env "token.json" fresh
            ⟨s.files, s.settingsResponses, s.trace ++
              [.readFile keyPath, .openFile "token.json", .startWebServer "localhost:8080",
               .stdout ("Go to the following link in your browser and complete the authentication: \n"
                 ++ env.authCodeURL config "state-token" ++ "\n"),
               .exchange code]⟩ = .done () s3
          ∧ main env customerID keyPath listResponses s =
              runAudit env customerID listResponses fresh s3 := by
  have hv := Token.Valid_of_expired cached env.now hnz hexp
  have hmain : main env customerID keyPath listResponses s =
      ((getTokenFromWeb env config
          ((s.emit (.readFile keyPath)).emit (.openFile "token.json"))).bind
        fun token s2 => (saveToken env "token.json" token s2).bind
          fun _ s3 => runAudit env customerID listResponses token s3) := by
    have hkey2 : (s.emit (.readFile keyPath)).files keyPath = some b := hkey
    have hfile2 : ((s.emit (.readFile keyPath)).emit (.openFile "token.json")).files "token.json"
        = some content := hfile
    simp only [main, if_neg hid, hkey2, hcfg, obtainToken, getTokenFromFile, hfile2, hdec, hv,
      Bool.false_eq_true, if_false]
    rw [Res.bind_assoc]
    congr 1
    funext token s2
    rw [Res.bind_assoc]
    rfl
  refine ⟨hmain, ?_⟩
  intro code fresh hl hc hx hcr
  have hsave : ∃ s3, saveToken env "token.json" fresh
      ⟨s.files, s.settingsResponses, s.trace ++
        [.readFile keyPath, .openFile "token.json", .startWebServer "localhost:8080",
         .stdout ("Go to the following link in your browser and complete the authentication: \n"
           ++ env.authCodeURL config "state-token" ++ "\n"),
         .exchange code]⟩ = .done () s3 := by
    unfold saveToken
    simp only [hcr]
    cases env.encodeToken fresh with
    | error e => exact ⟨_, rfl⟩
    | ok data => cases env.writeErr "token.json" <;> exact ⟨_, rfl⟩
  obtain ⟨s3, hs3⟩ := hsave
  refine ⟨s3, hs3, ?_⟩
  rw [hmain]
  simp only [getTokenFromWeb, startWebServer, listenFatal, hl, hc, hx, Res.bind, State.emit,
    List.append_assoc, List.cons_append, List.nil_append]
  rw [hs3]

/-- C7, amended, at a concrete run: the cache holds a token that expired an
hour before the clock. -/
theorem expired_token_is_replaced_witness :
    ("C01" ≠ "" ∧ (sampleState (some tokenExpiredJson)).files "key.json" = some "client-secret"
      ∧ tokenExpired.expiry ≠ 0 ∧ tokenExpired.expiry < (sampleEnv none).now)
    ∧ (main (sampleEnv none) "C01" "key.json" [.ok ⟨[], ""⟩]
        (sampleState (some tokenExpiredJson)) =
      ((getTokenFromWeb (sampleEnv none)
          ⟨"client-secret", [adminDirectoryGroupReadonlyScope, appsGroupsSettingsScope]⟩
          (((sampleState (some tokenExpiredJson)).emit (.readFile "key.json")).emit
            (.openFile "token.json"))).bind
        fun token s2 => (saveToken (sampleEnv none) "token.json" token s2).bind
          fun _ s3 => runAudit (sampleEnv none) "C01" [.ok ⟨[], ""⟩] token s3))
    ∧ (main (sampleEnv none) "C01" "key.json" [.ok ⟨[], ""⟩]
        (sampleState (some tokenExpiredJson))).trace =
      [.readFile "key.json", .openFile "token.json", .startWebServer "localhost:8080",
       .stdout ("Go to the following link in your browser and complete the authentication: \n"
         ++ "https://accounts.google.com/o/oauth2/auth?state=state-token\n"),
       .exchange "4/0AfJohX", .stdout "Saving credential file to: token.json\n",
       .createFile "token.json", .writeFile "token.json" tokenFreshJson,
       .newClient tokenFresh, .listRequest "C01" 100 ""] :=
  ⟨⟨by decide, rfl, by decide, by decide⟩,
    (expired_token_is_replaced (sampleEnv none) "C01" "key.json" [.ok ⟨[], ""⟩]
      (sampleState (some tokenExpiredJson)) "client-secret" tokenExpiredJson
      ⟨"client-secret", [adminDirectoryGroupReadonlyScope, appsGroupsSettingsScope]⟩
      tokenExpired (by decide) rfl rfl rfl rfl (by decide) (by decide)).1,
    by decide⟩

/-- C8, the claim as stated fails: a cache that parses into a token with an
empty access token and an expiry an hour after the clock is not reused, and
neither is one with an access token and an expiry five seconds after the
clock; in both runs the listener is started and the clients are built from
the token of the web flow. -/
theorem future_expiry_token_is_not_reused :
    ((getTokenFromFile (sampleEnv none) "token.json" (sampleState (some tokenNoAccessJson))).1 =
        .ok tokenNoAccess
      ∧ (sampleEnv none).now < tokenNoAccess.expiry
      ∧ (main (sampleEnv none) "C01" "key.json" [.ok ⟨[], ""⟩]
          (sampleState (some tokenNoAccessJson))).trace =
        [.readFile "key.json", .openFile "token.json", .startWebServer "localhost:8080",
         .stdout ("Go to the following link in your browser and complete the authentication: \n"
           ++ "https://accounts.google.com/o/oauth2/auth?state=state-token\n"),
         .exchange "4/0AfJohX", .stdout "Saving credential file to: token.json\n",
         .createFile "token.json", .writeFile "token.json" tokenFreshJson,
         .newClient tokenFresh, .listRequest "C01" 100 ""])
    ∧ ((getTokenFromFile (sampleEnv none) "token.json"
          (sampleState (some tokenExpiringSoonJson))).1 = .ok tokenExpiringSoon
      ∧ (sampleEnv none).now < tokenExpiringSoon.expiry
      ∧ (main (sampleEnv none) "C01" "key.json" [.ok ⟨[], ""⟩]
          (sampleState (some tokenExpiringSoonJson))).trace =
        [.readFile "key.json", .openFile "token.json", .startWebServer "localhost:8080",
         .stdout ("Go to the following link in your browser and complete the authentication: \n"
           ++ "https://accounts.google.com/o/oauth2/auth?state=state-token\n"),
         .exchange "4/0AfJohX", .stdout "Saving credential file to: token.json\n",
         .createFile "token.json", .writeFile "token.json" tokenFreshJson,
         .newClient tokenFresh, .listRequest "C01" 100 ""]) :=
  ⟨⟨rfl, by decide, by decide⟩, ⟨rfl, by decide, by decide⟩⟩

/-- C8, amended: when `token.json` decodes to a token with a non-empty access
token and an expiry at least ten seconds after the clock, `main` prints
`Reusing existing token.` right after the two reads and goes on to build the
clients from the cached token; no listener is started anywhere in the run. -/
theorem valid_cached_token_is_reused (env : Env) (customerID keyPath : String)
    (listResponses : List (Except String GroupsPage)) (s : State) (b content : String)
    (config : Config) (cached : Token)
    (hid : customerID ≠ "") (hkey : s.files keyPath = some b)
    (hcfg : env.configFromJSON b [adminDirectoryGroupReadonlyScope, appsGroupsSettingsScope] =
      .ok config)
    (hfile : s.files "token.json" = some content) (hdec : env.decodeToken content = .ok cached)
    (hacc : cached.accessToken ≠ "") (hfut : env.now + defaultExpiryDelta ≤ cached.expiry) :
    main env customerID keyPath listResponses s =
      runAudit env customerID listResponses cached
        ⟨s.files, s.settingsResponses, s.trace ++
          [.readFile keyPath, .openFile "token.json", .stdout "Reusing existing token.\n"]⟩
    ∧ ∀ s1 ∈ (main env customerID keyPath listResponses s).state?,
        webServerStartsOf s1.trace = webServerStartsOf s.trace := by
  have hv := Token.Valid_of_future cached env.now hacc hfut
  have hmain : main env customerID keyPath listResponses s =
      runAudit env customerID listResponses cached
        ⟨s.files, s.settingsResponses, s.trace ++
          [.readFile keyPath, .openFile "token.json", .stdout "Reusing existing token.\n"]⟩ := by
    have hkey2 : (s.emit (.readFile keyPath)).files keyPath = some b := hkey
    have hfile2 : ((s.emit (.readFile keyPath)).emit (.openFile "token.json")).files "token.json"
        = some content := hfile
    simp only [main, if_neg hid, hkey2, hcfg, obtainToken, getTokenFromFile, hfile2, hdec, hv]
    simp [Res.bind, State.emit]
  refine ⟨hmain, ?_⟩
  intro s1 h1
  rw [hmain] at h1
  rw [runAudit_starts_no_server _ _ _ _ _ _ h1]
  simp [webServerStartsOf_append, webServerStartsOf]

/-- C8, amended, at a concrete run: the cache holds a token that expires an
hour after the clock. -/
theorem valid_cached_token_is_reused_witness :
    ("C01" ≠ "" ∧ tokenValid.accessToken ≠ ""
      ∧ (sampleEnv none).now + defaultExpiryDelta ≤ tokenValid.expiry)
    ∧ main (sampleEnv none) "C01" "key.json" [.ok ⟨[], ""⟩] (sampleState (some tokenValidJson)) =
      runAudit (sampleEnv none) "C01" [.ok ⟨[], ""⟩] tokenValid
        ⟨(sampleState (some tokenValidJson)).files, [],
          [] ++ [.readFile "key.json", .openFile "token.json",
            .stdout "Reusing existing token.\n"]⟩
    ∧ (main (sampleEnv none) "C01" "key.json" [.ok ⟨[], ""⟩]
        (sampleState (some tokenValidJson))).trace =
      [.readFile "key.json", .openFile "token.json", .stdout "Reusing existing token.\n",
       .newClient tokenValid, .listRequest "C01" 100 ""] :=
  ⟨⟨by decide, by decide, by decide⟩,
    (valid_cached_token_is_reused (sampleEnv none) "C01" "key.json" [.ok ⟨[], ""⟩]
      (sampleState (some tokenValidJson)) "client-secret" tokenValidJson
      ⟨"client-secret", [adminDirectoryGroupReadonlyScope, appsGroupsSettingsScope]⟩
      tokenValid (by decide) rfl rfl rfl rfl (by decide) (by decide)).1,
    by decide⟩

/-- C9: the code does not do what the claim says.  When the file is created
and the write of the serialised token fails, `saveToken` returns normally,
no fatal message, and the file at `path` is empty instead of holding the
token. -/
theorem saveToken_ignores_write_failure (env : Env) (path : String) (token : Token) (s : State)
    (data err : String) (hcreate : env.createErr path = none)
    (henc : env.encodeToken token = .ok data) (hdata : data ≠ "")
    (hwrite : env.writeErr path = some err) :
    ∃ s1, saveToken env path token s = .done () s1
      ∧ s1.files path = some "" ∧ s1.files path ≠ some data := by
  refine ⟨_, by simp only [saveToken, hcreate, henc, hwrite]; rfl, ?_, ?_⟩
  · simp [State.emit, State.setFile]
  · simp only [State.emit, State.setFile, if_true, ne_eq, Option.some.injEq]
    exact fun h => hdata h.symm

/-- C9 at a concrete run: the disk is full while `tokenFresh` is saved over an
older cache. -/
theorem saveToken_ignores_write_failure_witness :
    ((sampleEnv (some "no space left on device")).createErr "token.json" = none
      ∧ tokenFreshJson ≠ ""
      ∧ (sampleEnv (some "no space left on device")).writeErr "token.json"
          = some "no space left on device")
    ∧ ∃ s1, saveToken (sampleEnv (some "no space left on device")) "token.json" tokenFresh
          (sampleState (some tokenExpiredJson)) = .done () s1
        ∧ s1.files "token.json" = some "" ∧ s1.files "token.json" ≠ some tokenFreshJson :=
  ⟨⟨rfl, by decide, rfl⟩,
    saveToken_ignores_write_failure (sampleEnv (some "no space left on device")) "token.json"
      tokenFresh (sampleState (some tokenExpiredJson)) tokenFreshJson "no space left on device"
      rfl rfl (by decide) rfl⟩

/-- C10: the code does not do what the claim says.  When the file is created
and the write of the serialised token fails, `saveToken` returns and
`getTokenFromFile` on the same path then returns the decoder's error for an
empty file, not the token. -/
theorem load_after_failed_save (env : Env) (path : String) (token : Token) (s : State)
    (data err eof : String) (hcreate : env.createErr path = none)
    (henc : env.encodeToken token = .ok data) (hwrite : env.writeErr path = some err)
    (hdec : env.decodeToken "" = .error eof) :
    ∃ s1, saveToken env path token s = .done () s1
      ∧ (getTokenFromFile env path s1).1 = .error eof := by
  refine ⟨_, by simp only [saveToken, hcreate, henc, hwrite]; rfl, ?_⟩
  simp [getTokenFromFile, State.emit, State.setFile, hdec]

/-- C10 at a concrete run: the disk is full while `tokenFresh` is saved, and
the load that follows fails with `EOF`. -/
theorem load_after_failed_save_witness :
    ((sampleEnv (some "no space left on device")).createErr "token.json" = none
      ∧ (sampleEnv (some "no space left on device")).encodeToken tokenFresh = .ok tokenFreshJson
      ∧ (sampleEnv (some "no space left on device")).writeErr "token.json"
          = some "no space left on device"
      ∧ (sampleEnv (some "no space left on device")).decodeToken "" = .error "EOF")
    ∧ ∃ s1, saveToken (sampleEnv (some "no space left on device")) "token.json" tokenFresh
          (sampleState none) = .done () s1
        ∧ (getTokenFromFile (sampleEnv (some "no space left on device")) "token.json" s1).1
            = .error "EOF" :=
  ⟨⟨rfl, rfl, rfl, rfl⟩,
    load_after_failed_save (sampleEnv (some "no space left on device")) "token.json"
      tokenFresh (sampleState none) tokenFreshJson "no space left on device" "EOF"
      rfl rfl rfl rfl⟩

/-- When the file is created, the token is encoded and written, and the
decoder inverts the encoder on it, the load that follows a save returns the
token saved, whatever the file held before. -/
theorem load_after_successful_save (env : Env) (path : String) (token : Token) (s : State)
    (data : String) (hcreate : env.createErr path = none)
    (henc : env.encodeToken token = .ok data) (hwrite : env.writeErr path = none)
    (hdec : env.decodeToken data = .ok token) :
    ∃ s1, saveToken env path token s = .done () s1
      ∧ (getTokenFromFile env path s1).1 = .ok token := by
  refine ⟨_, by simp only [saveToken, hcreate, henc, hwrite]; rfl, ?_⟩
  simp [getTokenFromFile, State.emit, State.setFile, hdec]

/-! ## Concrete runs of the loops -/

/-- C2 at a concrete run: three pages with tokens `page-2`, `page-3` and the
empty token give three list requests and four lookups, in page order. -/
theorem pagination_concatenates_pages_witness :
    ((∀ p ∈ samplePages, p.nextPageToken ≠ "") ∧ sampleLastPage.nextPageToken = ""
      ∧ (allGroups (samplePages ++ [sampleLastPage])).length
          ≤ sampleAuditState.settingsResponses.length)
    ∧ ∃ s1 added,
      (∀ rest, listLoop "C01" ((samplePages ++ [sampleLastPage]).map .ok ++ rest) ""
        sampleAuditState = .done () s1)
      ∧ s1.trace = sampleAuditState.trace ++ added
      ∧ listRequestsOf added = [("C01", 100, ""), ("C01", 100, "page-2"), ("C01", 100, "page-3")]
      ∧ lookupsOf added =
          ["a@example.com", "b@example.com", "c@example.com", "d@example.com"] :=
  ⟨⟨by decide, rfl, by decide⟩,
    match pagination_concatenates_pages "C01" samplePages sampleLastPage sampleAuditState
      (by decide) rfl (by decide) with
    | ⟨s1, added, h1, h2, h3, _, h5, _⟩ => ⟨s1, added, h1, h2, h3, h5⟩⟩

/-- C3 at a concrete run: of a, b, c only b fails; standard output holds the
line of a and the line of c, the same as for a and c alone, and the log
holds the warning for b. -/
theorem failed_lookup_is_skipped_witness :
    ([Except.ok (⟨"ALL_IN_DOMAIN_CAN_JOIN"⟩ : GroupSettings), .error "googleapi: Error 503",
        .ok ⟨"ANYONE_CAN_JOIN"⟩].length
      = (allGroups samplePages).length)
    ∧ (∃ s1 s2,
      auditGroups (allGroups samplePages) ⟨fun _ => none,
        [.ok ⟨"ALL_IN_DOMAIN_CAN_JOIN"⟩, .error "googleapi: Error 503",
          .ok ⟨"ANYONE_CAN_JOIN"⟩], []⟩ = some s1
      ∧ auditGroups [⟨"a@example.com", "A", ""⟩, ⟨"c@example.com", "C", ""⟩] ⟨fun _ => none,
        [.ok ⟨"ALL_IN_DOMAIN_CAN_JOIN"⟩, .ok ⟨"ANYONE_CAN_JOIN"⟩], []⟩ = some s2
      ∧ stdoutOf s1.trace = stdoutOf s2.trace
      ∧ lookupsOf s1.trace = ["a@example.com", "b@example.com", "c@example.com"]
      ∧ stdoutOf s1.trace =
          ["Group: a@example.com | allows anyone in the domain to join\n",
           "Group: c@example.com | allows anyone anywhere to join\n"])
    ∧ ∃ s3,
      auditGroups [⟨"a@example.com", "A", ""⟩, ⟨"b@example.com", "B", ""⟩,
          ⟨"c@example.com", "C", ""⟩] ⟨fun _ => none,
        [.ok ⟨"ALL_IN_DOMAIN_CAN_JOIN"⟩, .error "googleapi: Error 503",
          .ok ⟨"ANYONE_CAN_JOIN"⟩], []⟩ = some s3
      ∧ stdoutOf s3.trace =
          ["Group: a@example.com | allows anyone in the domain to join\n",
           "Group: c@example.com | allows anyone anywhere to join\n"]
      ∧ logOf s3.trace =
          ["Unable to retrieve settings for group b@example.com: googleapi: Error 503"] :=
  ⟨by decide,
    match (failed_lookup_is_skipped (allGroups samplePages)
      [.ok ⟨"ALL_IN_DOMAIN_CAN_JOIN"⟩, .error "googleapi: Error 503", .ok ⟨"ANYONE_CAN_JOIN"⟩]
      (fun _ => none) [] (by decide)).1 with
    | ⟨s1, s2, h1, h2, h3, h4, _, h6⟩ => ⟨s1, s2, h1, h2, h3, h4, h6⟩,
    match (failed_lookup_is_skipped (allGroups samplePages)
      [.ok ⟨"ALL_IN_DOMAIN_CAN_JOIN"⟩, .error "googleapi: Error 503", .ok ⟨"ANYONE_CAN_JOIN"⟩]
      (fun _ => none) [] (by decide)).2 ⟨"a@example.com", "A", ""⟩ ⟨"b@example.com", "B", ""⟩
      ⟨"c@example.com", "C", ""⟩ ⟨"ALL_IN_DOMAIN_CAN_JOIN"⟩ ⟨"ANYONE_CAN_JOIN"⟩
      "googleapi: Error 503" with
    | ⟨s3, h1, _, _, h4, h5⟩ => ⟨s3, h1, h4, h5⟩⟩

/-- C4 at a concrete run: a page of three groups takes three of the four
results of the settings script and issues the three lookups in order. -/
theorem one_lookup_per_group_witness :
    ((allGroups samplePages).length ≤ sampleAuditState.settingsResponses.length)
    ∧ ∃ s1 added, auditGroups (allGroups samplePages) sampleAuditState = some s1
      ∧ s1.trace = sampleAuditState.trace ++ added
      ∧ lookupsOf added = ["a@example.com", "b@example.com", "c@example.com"]
      ∧ s1.settingsResponses = [.ok ⟨"INVITED_CAN_JOIN"⟩] :=
  ⟨by decide, one_lookup_per_group (allGroups samplePages) sampleAuditState (by decide)⟩

/-- C5 at a concrete run: the third list request fails after two pages. -/
theorem list_failure_is_fatal_witness :
    ((∀ p ∈ samplePages, p.nextPageToken ≠ "")
      ∧ (allGroups samplePages).length ≤ sampleAuditState.settingsResponses.length)
    ∧ ∃ s1 before,
      (∀ rest, listLoop "C01" (samplePages.map .ok ++ .error "googleapi: Error 500" :: rest) ""
          sampleAuditState =
        .fatal ("Unable to retrieve groups: " ++ "googleapi: Error 500") s1)
      ∧ s1.trace = sampleAuditState.trace ++ before ++ [.listRequest "C01" 100 "page-3"]
      ∧ listRequestsOf before = [("C01", 100, ""), ("C01", 100, "page-2")]
      ∧ lookupsOf before = ["a@example.com", "b@example.com", "c@example.com"] :=
  ⟨⟨by decide, by decide⟩,
    match list_failure_is_fatal "C01" samplePages "googleapi: Error 500" sampleAuditState
      (by decide) (by decide) with
    | ⟨s1, before, h1, h2, h3, _, h5, _⟩ =>
      ⟨s1, before, h1, h2, List.append_cancel_right h3, h5⟩⟩

end Ggenum
